import Mathlib

/-!
Verification of the GaNDLF-Synth training/inference orchestration core.

This file gives a shallow embedding, in Lean 4, of the control logic of
`gandlf_synth/inference_manager.py` and of the DCGAN / StyleGAN synthesis
modules (`gandlf_synth/models/modules/dcgan_module.py`,
`gandlf_synth/models/modules/stylegan_module.py`), together with theorems
about that logic.

Modelling conventions:
* Python integers become `Nat` (all quantities involved are non-negative);
  the StyleGAN `alpha` blend factor becomes `ℚ` (the algorithmic property
  in question is exact arithmetic, not floating point rounding).
* Tensor computations (losses, gradients, generated images) are external
  collaborators: the embedding records that they happen, and with which
  control decisions, through explicit event lists; numeric loss values are
  supplied by an abstract environment function.
* The global torch random-number generator is modelled as an abstract
  state of type `Nat` with caller-supplied transition/sampling/seeding
  functions, which is all the save/seed/restore logic depends on.
* Filesystem existence is modelled as a list of existing path strings.
-/

/-! ## Definitions

### Inference manager: batch splitting (`InferenceManager._determine_n_batches`,
`InferenceManager._unlabeled_inference`) -/

/-- Embedding of `InferenceManager._determine_n_batches`:
`n_batches = n // b (+1 if remainder > 0)`, `remainder = n % b`. -/
def determine_n_batches (n_images_to_generate batch_size : Nat) : Nat × Nat :=
  let n_batches := n_images_to_generate / batch_size
  let remainder := n_images_to_generate % batch_size
  if remainder > 0 then (n_batches + 1, remainder) else (n_batches, remainder)

/-- The sequence of per-call generation sizes produced by the loop in
`InferenceManager._unlabeled_inference`: for `i in range(n_batches)` the
requested size is `batch_size`, except on the last batch when the remainder
is positive. -/
def unlabeled_inference_batch_sizes (n_images_to_generate batch_size : Nat) : List Nat :=
  let nb := (determine_n_batches n_images_to_generate batch_size).1
  let r := (determine_n_batches n_images_to_generate batch_size).2
  (List.range nb).map (fun i => if 0 < r ∧ i = nb - 1 then r else batch_size)

/-! ### Inference manager: configuration validation and construction order
(`InferenceManager._validate_inference_config`, `InferenceManager.__init__`) -/

/-- A Python configuration value, as far as `_validate_inference_config`
inspects it: an integer, a string, a dictionary, or anything else
(`pyother` stands for values of any other runtime type, e.g. float/list). -/
inductive PyVal where
  | int (i : Int)
  | str (s : String)
  | dict (entries : List (String × PyVal))
  | pyother

/-- Embedding of the per-class loop in `_validate_inference_config` for the
labeled paradigm: each class count must be an `int` and must be `> 0`
(the `isinstance` assert fires before the positivity assert, per item). -/
def validate_labeled_counts : List (String × PyVal) → Except String Unit
  | [] => Except.ok ()
  | (_, PyVal.int i) :: rest =>
    if 0 < i then validate_labeled_counts rest
    else Except.error "The number of images to generate must be greater than 0."
  | _ => Except.error "The number of images to generate must be an integer."

/-- The paradigm-dependent part of `_validate_inference_config`, applied
to the value found under `n_images_to_generate`. -/
def validate_count_value (labeling_paradigm : String) (v : PyVal) :
    Except String Unit :=
  if labeling_paradigm = "unlabeled" then
    match v with
    | PyVal.int i =>
      if 0 < i then Except.ok ()
      else Except.error "The number of images to generate must be greater than 0."
    | _ => Except.error "The number of images to generate must be an integer."
  else
    match v with
    | PyVal.dict entries => validate_labeled_counts entries
    | _ => Except.error "The number of images to generate must be a dictionary."

/-- Embedding of `InferenceManager._validate_inference_config`. The Python
code raises `AssertionError` with the quoted messages; per the error
taxonomy these are fatal configuration errors, embedded as `Except.error`. -/
def validate_inference_config (labeling_paradigm : String)
    (inference_config : List (String × PyVal)) : Except String Unit :=
  match List.lookup "n_images_to_generate" inference_config with
  | none =>
    Except.error
      "The inference config for the unlabeled paradigm must contain the key 'n_images_to_generate'."
  | some v => validate_count_value labeling_paradigm v

/-- The externally visible stages of `InferenceManager.__init__`, in source
order: output-directory preparation, config validation, logger and metric
setup, module-factory construction, checkpoint loading, `model.eval()`. -/
inductive InitEvent where
  | prepare_output_dir
  | validate_config
  | prepare_logger
  | get_metrics
  | module_factory
  | load_checkpoint
  | model_eval
deriving DecidableEq

/-- Embedding of the stage ordering of `InferenceManager.__init__`: the
stages run in source order and a validation failure aborts construction,
so on failure only the stages preceding validation have run. -/
def inference_manager_init (labeling_paradigm : String)
    (inference_config : List (String × PyVal)) :
    List InitEvent × Except String Unit :=
  match validate_inference_config labeling_paradigm inference_config with
  | Except.error e =>
    ([InitEvent.prepare_output_dir, InitEvent.validate_config], Except.error e)
  | Except.ok _ =>
    ([InitEvent.prepare_output_dir, InitEvent.validate_config,
      InitEvent.prepare_logger, InitEvent.get_metrics, InitEvent.module_factory,
      InitEvent.load_checkpoint, InitEvent.model_eval], Except.ok ())

/-! ### Inference manager: output directory resolution
(`InferenceManager._prepare_output_directory`) -/

/-- Embedding of the inner `_prepare_out_dir_path`: join the output
directory with the model directory basename plus the fixed suffix. -/
def prepare_out_dir_path (output_dir model_dir_basename : String) : String :=
  output_dir ++ "/" ++ model_dir_basename ++ "_inference_output"

/-- The candidate path `f"{model_inference_output_path}_{index}"`. -/
def indexed_output_path (base : String) (index : Nat) : String :=
  base ++ "_" ++ Nat.repr index

/-- Embedding of the `while os.path.exists(...)` search: starting from
`index`, return the first index whose candidate path does not exist.
`fuel` bounds the loop so the model is total; the Python loop terminates
on any real (finite) filesystem. -/
def find_free_index (existing : List String) (base : String) :
    Nat → Nat → Option Nat
  | 0, _ => none
  | fuel + 1, index =>
    if indexed_output_path base index ∈ existing then
      find_free_index existing base fuel (index + 1)
    else some index

/-- Embedding of `InferenceManager._prepare_output_directory` over a
filesystem modelled as the list of existing paths. Returns the created
directory and the filesystem after `os.makedirs`. -/
def prepare_output_directory (existing : List String)
    (output_dir model_dir_basename : String) (fuel : Nat) :
    Option (String × List String) :=
  let path := prepare_out_dir_path output_dir model_dir_basename
  if path ∈ existing then
    match find_free_index existing path fuel 1 with
    | some index =>
      some (indexed_output_path path index, indexed_output_path path index :: existing)
    | none => none
  else some (path, path :: existing)

/-! ### Fixed-seed latent generation
(`_generate_fixed_latent_vector` in both modules)

The torch global generator is an abstract state of type `Nat`:
`next` advances the state by one draw, `sample` reads the drawn value at a
state, and `seed_state` is the state installed by `torch.manual_seed`.
`torch.get_rng_state` / `torch.set_rng_state` are the identity on this
state, exactly as in the source. -/

/-- A sequence of `n` draws from the generator (the model of
`torch.randn(shape)`, where `n` is the number of tensor elements):
returns the drawn values and the advanced generator state. -/
def randn_stream (next : Nat → Nat) (sample : Nat → Int) :
    Nat → Nat → List Int × Nat
  | 0, g => ([], g)
  | k + 1, g =>
    let v := sample g
    let rest := randn_stream next sample k (next g)
    (v :: rest.1, rest.2)

/-- Embedding of `_generate_latent_vector`: a fresh `torch.randn` draw of
`n_values` elements from the current global generator state. -/
def generate_latent_vector (next : Nat → Nat) (sample : Nat → Int)
    (n_values g : Nat) : List Int × Nat :=
  randn_stream next sample n_values g

/-- Embedding of `_generate_fixed_latent_vector` (identical in the DCGAN
and StyleGAN modules): save the generator state, seed with the configured
fixed seed, draw the latent vector, restore the saved state. -/
def generate_fixed_latent_vector (next : Nat → Nat) (sample : Nat → Int)
    (seed_state : Nat → Nat) (fixed_latent_vector_seed n_values g : Nat) :
    List Int × Nat :=
  let current_rng_state := g
  let seeded := seed_state fixed_latent_vector_seed
  let generated := generate_latent_vector next sample n_values seeded
  (generated.1, current_rng_state)

/-! ### Adversarial training steps (DCGAN and StyleGAN modules)

The gradient/optimizer machinery acts on tensors owned by torch; the
embedding records the control decisions of `training_step` as an event
list and threads the module-owned Python state explicitly. Numeric loss
values (results of tensor arithmetic) are supplied by the environment's
`loss_of` function, one `(disc_loss, gen_loss)` record per batch index. -/

/-- One observable action of a training step, tagged with the batch index
that performed it. -/
inductive StepEvent where
  | warn_skip (batch_idx : Nat)
  | disc_backward (batch_idx : Nat)
  | disc_opt_step (batch_idx : Nat)
  | disc_zero_grad (batch_idx : Nat)
  | gen_backward (batch_idx : Nat)
  | gen_opt_step (batch_idx : Nat)
  | gen_zero_grad (batch_idx : Nat)
deriving DecidableEq

def is_disc_opt_step : StepEvent → Bool
  | StepEvent.disc_opt_step _ => true
  | _ => false

def is_disc_zero_grad : StepEvent → Bool
  | StepEvent.disc_zero_grad _ => true
  | _ => false

/-- Number of discriminator optimizer `step()` calls in an event list. -/
def count_disc_opt_steps (events : List StepEvent) : Nat :=
  events.countP is_disc_opt_step

/-- Number of discriminator optimizer `zero_grad()` calls in an event list. -/
def count_disc_zero_grads (events : List StepEvent) : Nat :=
  events.countP is_disc_zero_grad

/-- Environment of `UnlabeledDCGANModule.training_step`: the configured
accumulation setting and the abstract per-batch loss results. -/
structure DCGANEnv where
  accumulate_grad_batches : Nat
  loss_of : Nat → ℚ × ℚ

/-- Module-owned mutable state of the DCGAN module that `training_step`
touches: the running loss history. -/
structure DCGANState where
  train_loss_list : List (ℚ × ℚ)

/-- Embedding of `UnlabeledDCGANModule.training_step`: generator phase
(backward, clip, conditional step/zero_grad) then discriminator phase
(backward, clip, conditional step/zero_grad), then the loss record is
appended. The optimizer is stepped only when
`(batch_idx + 1) % accumulate_grad_batches == 0`. -/
def dcgan_training_step (env : DCGANEnv) (st : DCGANState)
    (_batch_size batch_idx : Nat) : DCGANState × List StepEvent :=
  let boundary := (batch_idx + 1) % env.accumulate_grad_batches = 0
  let gen_events := [StepEvent.gen_backward batch_idx] ++
    (if boundary then
      [StepEvent.gen_opt_step batch_idx, StepEvent.gen_zero_grad batch_idx]
    else [])
  let disc_events := [StepEvent.disc_backward batch_idx] ++
    (if boundary then
      [StepEvent.disc_opt_step batch_idx, StepEvent.disc_zero_grad batch_idx]
    else [])
  ({ train_loss_list := st.train_loss_list ++ [env.loss_of batch_idx] },
    gen_events ++ disc_events)

/-- Environment of `UnlabeledStyleGANModule.training_step`: accumulation
setting, the configured per-stage epoch schedule, the training dataset
size, and the abstract per-batch loss results. -/
structure StyleGANEnv where
  accumulate_grad_batches : Nat
  progressive_epochs : List Nat
  dataset_size : Nat
  loss_of : Nat → ℚ × ℚ

/-- Module-owned mutable state of the StyleGAN module that `training_step`
and the epoch-boundary hooks touch: the alpha blend factor, the current
progressive stage index, the epoch counter within the stage, and the
running loss history. -/
structure StyleGANState where
  alpha : ℚ
  current_step : Nat
  current_epoch_in_progressive_epoch : Nat
  train_loss_list : List (ℚ × ℚ)

/-- Embedding of `UnlabeledStyleGANModule.training_step`: a batch of size 1
is skipped with a warning before any gradient work; otherwise the
discriminator phase runs first, then the generator phase (each stepping
its optimizer only on accumulation boundaries), then alpha is incremented
by `batch_size / (progressive_epochs[current_step] * dataset_size)` and
clamped to 1.0, and the loss record is appended. (Indexing the epoch
schedule is totalised with `getD`; in-range behaviour is identical.) -/
def stylegan_training_step (env : StyleGANEnv) (st : StyleGANState)
    (batch_size batch_idx : Nat) : StyleGANState × List StepEvent :=
  if batch_size = 1 then (st, [StepEvent.warn_skip batch_idx])
  else
    let boundary := (batch_idx + 1) % env.accumulate_grad_batches = 0
    let disc_events := [StepEvent.disc_backward batch_idx] ++
      (if boundary then
        [StepEvent.disc_opt_step batch_idx, StepEvent.disc_zero_grad batch_idx]
      else [])
    let gen_events := [StepEvent.gen_backward batch_idx] ++
      (if boundary then
        [StepEvent.gen_opt_step batch_idx, StepEvent.gen_zero_grad batch_idx]
      else [])
    let increment : ℚ := (batch_size : ℚ) /
      ((env.progressive_epochs.getD st.current_step 0 : ℚ) * (env.dataset_size : ℚ))
    { st with
        alpha := min (st.alpha + increment) 1,
        train_loss_list := st.train_loss_list ++ [env.loss_of batch_idx] }
      |> fun st1 => (st1, disc_events ++ gen_events)

/-- A run of consecutive DCGAN training steps over the listed batch sizes,
starting at the given batch index; collects all emitted events. -/
def dcgan_run (env : DCGANEnv) (st : DCGANState) :
    List Nat → Nat → DCGANState × List StepEvent
  | [], _ => (st, [])
  | b :: rest, start_idx =>
    let one := dcgan_training_step env st b start_idx
    let next := dcgan_run env one.1 rest (start_idx + 1)
    (next.1, one.2 ++ next.2)

/-- A run of consecutive StyleGAN training steps over the listed batch
sizes, starting at the given batch index; collects all emitted events. -/
def stylegan_run (env : StyleGANEnv) (st : StyleGANState) :
    List Nat → Nat → StyleGANState × List StepEvent
  | [], _ => (st, [])
  | b :: rest, start_idx =>
    let one := stylegan_training_step env st b start_idx
    let next := stylegan_run env one.1 rest (start_idx + 1)
    (next.1, one.2 ++ next.2)

/-- The sequence of alpha values observed along a run: the value before
the first step and after each step. -/
def stylegan_alpha_trace (env : StyleGANEnv) (st : StyleGANState) :
    List Nat → Nat → List ℚ
  | [], _ => [st.alpha]
  | b :: rest, start_idx =>
    st.alpha ::
      stylegan_alpha_trace env (stylegan_training_step env st b start_idx).1
        rest (start_idx + 1)

/-! ### StyleGAN progressive stage bookkeeping
(`UnlabeledStyleGANModule._update_current_step`, `on_train_start`,
`_set_current_resize_transform`) -/

/-- A transform installed in the training dataset's pipeline: either a
`torchio` `Resize` (with its spatial shape) or any other transform,
identified abstractly by a tag. -/
inductive ImageTransform where
  | resize (spatial_shape : List Nat)
  | other (tag : Nat)
deriving DecidableEq

def is_resize : ImageTransform → Bool
  | ImageTransform.resize _ => true
  | _ => false

/-- The architecture configuration fields read by the resize logic. -/
structure StyleGANArchConfig where
  progressive_size_starting_value : Nat
  progressive_size_growth_factor : Nat
  n_dimensions : Nat

/-- Embedding of `_determine_current_spatial_size`:
`starting_value * growth_factor ** current_step`. -/
def determine_current_spatial_size (cfg : StyleGANArchConfig)
    (current_step : Nat) : Nat :=
  cfg.progressive_size_starting_value *
    cfg.progressive_size_growth_factor ^ current_step

/-- Embedding of `_determine_required_spatial_shape`: `[s, s, 1]` for 2D
models and `[s, s, s]` for 3D models. -/
def determine_required_spatial_shape (cfg : StyleGANArchConfig)
    (current_step : Nat) : List Nat :=
  let s := determine_current_spatial_size cfg current_step
  [s, s, if cfg.n_dimensions = 2 then 1 else s]

/-- Embedding of `_replace_existing_resize_transform_in_existing_transforms`:
replace the first `Resize` in the list. (The Python code returns `None`
when no `Resize` is present, but its only caller guards with `any`, so
that branch is unreachable; the model returns the list unchanged there.) -/
def replace_first_resize (new_resize : ImageTransform) :
    List ImageTransform → List ImageTransform
  | [] => []
  | t :: rest =>
    if is_resize t then new_resize :: rest
    else t :: replace_first_resize new_resize rest

/-- Embedding of `_set_current_resize_transform`: build the resize for the
current stage, then replace an existing `Resize` in the dataset's
transforms if there is one, else append it. -/
def set_current_resize_transform (cfg : StyleGANArchConfig)
    (current_step : Nat) (transforms : List ImageTransform) :
    List ImageTransform :=
  let new_resize :=
    ImageTransform.resize (determine_required_spatial_shape cfg current_step)
  if transforms.any is_resize then replace_first_resize new_resize transforms
  else transforms ++ [new_resize]

/-- The fatal error raised by the schedule check in `on_train_start`
(an `AssertionError` in the source whose message reports both totals;
`StageScheduleMismatchError` in the spec's taxonomy). -/
inductive TrainStartError where
  | stage_schedule_mismatch (trainer_epochs progressive_sum : Nat)
deriving DecidableEq

/-- Embedding of `UnlabeledStyleGANModule.on_train_start`: assert that the
trainer's `max_epochs` equals the sum of `progressive_epochs`, then
install the resize transform for the current stage. Runs before any
training batch is processed (it is the trainer's train-start hook). -/
def on_train_start (cfg : StyleGANArchConfig) (max_epochs : Nat)
    (progressive_epochs : List Nat) (current_step : Nat)
    (transforms : List ImageTransform) :
    Except TrainStartError (List ImageTransform) :=
  if max_epochs = progressive_epochs.sum then
    Except.ok (set_current_resize_transform cfg current_step transforms)
  else
    Except.error (TrainStartError.stage_schedule_mismatch max_epochs
      progressive_epochs.sum)

/-- Embedding of `UnlabeledStyleGANModule._update_current_step` restricted
to the module-owned state (the resize-transform installation acts on the
trainer-owned dataset and is modelled by `set_current_resize_transform`):
increment the epoch-in-stage counter; once the stage's epoch quota is met,
reset the counter and advance the stage index. -/
def update_current_step (env : StyleGANEnv) (st : StyleGANState) :
    StyleGANState :=
  let counter := st.current_epoch_in_progressive_epoch + 1
  let current_progressive_epochs := env.progressive_epochs.getD st.current_step 0
  if counter ≥ current_progressive_epochs then
    { st with
        current_epoch_in_progressive_epoch := 0,
        current_step := st.current_step + 1 }
  else { st with current_epoch_in_progressive_epoch := counter }

/-- An operation acting on the module state during training: one training
step, or the stage bookkeeping performed at an epoch boundary by
`on_train_epoch_end` (whose preview generation does not touch this state). -/
inductive StyleGANOp where
  | train_step (batch_size batch_idx : Nat)
  | epoch_end

def apply_stylegan_op (env : StyleGANEnv) (st : StyleGANState) :
    StyleGANOp → StyleGANState
  | StyleGANOp.train_step b i => (stylegan_training_step env st b i).1
  | StyleGANOp.epoch_end => update_current_step env st

def apply_stylegan_ops (env : StyleGANEnv) (st : StyleGANState)
    (ops : List StyleGANOp) : StyleGANState :=
  ops.foldl (apply_stylegan_op env) st

/-! ### Fixed-preview image naming (`on_train_epoch_end` in both modules) -/

/-- The preview batch sizes used by `on_train_epoch_end`: full batches of
`fixed_images_batch_size` with a final remainder batch, mirroring the
`n_batches`/`last_batch_size` computation in the source. -/
def fixed_preview_batch_sizes (n_fixed_images fixed_images_batch_size : Nat) :
    List Nat :=
  let last_batch_size := n_fixed_images % fixed_images_batch_size
  let n_batches := n_fixed_images / fixed_images_batch_size +
    (if 0 < last_batch_size then 1 else 0)
  (List.range n_batches).map
    (fun i => if i = n_batches - 1 ∧ 0 < last_batch_size then last_batch_size
      else fixed_images_batch_size)

/-- The filename given to preview image `n` of batch `i`:
`f"fake_image_{i*n + n}_{process_rank}.png"`. -/
def fixed_preview_filename (i n process_rank : Nat) : String :=
  "fake_image_" ++ Nat.repr (i * n + n) ++ "_" ++ Nat.repr process_rank ++ ".png"

/-- All filenames assigned within one `on_train_epoch_end` preview pass:
batch `i` of size `sz` names its images with `n = 0 .. sz-1`. -/
def fixed_preview_filenames (n_fixed_images fixed_images_batch_size
    process_rank : Nat) : List String :=
  ((fixed_preview_batch_sizes n_fixed_images fixed_images_batch_size).enum).flatMap
    (fun p => (List.range p.2).map
      (fun n => fixed_preview_filename p.1 n process_rank))

/-- A concrete loss environment for witnesses: every batch reports zero
losses. -/
def zero_losses : Nat → ℚ × ℚ := fun _ => (0, 0)

/-- A concrete StyleGAN environment for witnesses: no gradient
accumulation, two stages of two epochs, four training samples. -/
def example_stylegan_env : StyleGANEnv :=
  { accumulate_grad_batches := 1, progressive_epochs := [2, 2],
    dataset_size := 4, loss_of := zero_losses }

/-- The initial StyleGAN module state with `alpha = 0`. -/
def initial_stylegan_state : StyleGANState :=
  { alpha := 0, current_step := 0, current_epoch_in_progressive_epoch := 0,
    train_loss_list := [] }

/-! ## Theorems -/

lemma determine_n_batches_fst (n b : Nat) :
    (determine_n_batches n b).1 = n / b + (if n % b = 0 then 0 else 1) := by
  unfold determine_n_batches
  rcases Nat.eq_zero_or_pos (n % b) with hr | hr
  · rw [if_neg (by omega), if_pos hr]
    rfl
  · rw [if_pos hr, if_neg (by omega)]

lemma determine_n_batches_snd (n b : Nat) :
    (determine_n_batches n b).2 = n % b := by
  unfold determine_n_batches
  rcases Nat.eq_zero_or_pos (n % b) with hr | hr
  · rw [if_neg (by omega)]
  · rw [if_pos hr]

/-- Normal form of the batch-size list: a block of full batches followed by
one final batch (the remainder when `b ∤ n`, else a full batch). -/
lemma unlabeled_inference_batch_sizes_eq (n b : Nat) (hn : 1 ≤ n) (hb : 1 ≤ b) :
    unlabeled_inference_batch_sizes n b =
      List.replicate ((determine_n_batches n b).1 - 1) b ++
        [if n % b = 0 then b else n % b] := by
  obtain ⟨q, r, hr, rfl⟩ : ∃ q r, r < b ∧ n = b * q + r :=
    ⟨n / b, n % b, Nat.mod_lt _ (by omega), (Nat.div_add_mod n b).symm⟩
  have hdiv : (b * q + r) / b = q := by
    rw [Nat.mul_add_div (by omega), Nat.div_eq_of_lt hr, Nat.add_zero]
  have hmod : (b * q + r) % b = r := by
    rw [Nat.mul_add_mod, Nat.mod_eq_of_lt hr]
  unfold unlabeled_inference_batch_sizes
  simp only [determine_n_batches_fst, determine_n_batches_snd, hdiv, hmod]
  rcases Nat.eq_zero_or_pos r with hr0 | hr0
  · subst hr0
    rw [if_pos rfl, if_pos rfl, Nat.add_zero]
    have hq : 1 ≤ q := by
      by_contra hq
      have : q = 0 := by omega
      subst this
      omega
    have hmap : (List.range q).map (fun i => if 0 < (0:Nat) ∧ i = q - 1 then 0 else b) =
        List.replicate q b := by
      rw [List.eq_replicate_iff]
      refine ⟨by simp, ?_⟩
      intro x hx
      simp only [List.mem_map, List.mem_range] at hx
      obtain ⟨i, _, hfx⟩ := hx
      rw [if_neg (by omega)] at hfx
      exact hfx.symm
    rw [hmap]
    calc List.replicate q b = List.replicate (q - 1 + 1) b := by
          rw [Nat.sub_add_cancel hq]
      _ = List.replicate (q - 1) b ++ [b] := List.replicate_succ' _ _
  · rw [if_neg (by omega), if_neg (by omega)]
    have hrange : List.range (q + 1) = List.range q ++ [q] := by
      have h := List.range_succ q
      rwa [Nat.succ_eq_add_one] at h
    rw [hrange, List.map_append]
    congr 1
    · rw [List.eq_replicate_iff]
      refine ⟨by simp, ?_⟩
      intro x hx
      simp only [List.mem_map, List.mem_range] at hx
      obtain ⟨i, hi, hfx⟩ := hx
      rw [if_neg (by omega)] at hfx
      exact hfx.symm
    · simp only [List.map_cons, List.map_nil]
      rw [if_pos (by omega)]

/-- The number of batches computed by `_determine_n_batches` is `⌈n / b⌉`. -/
lemma determine_n_batches_eq_ceil (n b : Nat) (hb : 1 ≤ b) :
    (determine_n_batches n b).1 = (n + b - 1) / b := by
  obtain ⟨q, r, hr, rfl⟩ : ∃ q r, r < b ∧ n = b * q + r :=
    ⟨n / b, n % b, Nat.mod_lt _ (by omega), (Nat.div_add_mod n b).symm⟩
  have hdiv : (b * q + r) / b = q := by
    rw [Nat.mul_add_div (by omega), Nat.div_eq_of_lt hr, Nat.add_zero]
  have hmod : (b * q + r) % b = r := by
    rw [Nat.mul_add_mod, Nat.mod_eq_of_lt hr]
  rw [determine_n_batches_fst, hdiv, hmod]
  rcases Nat.eq_zero_or_pos r with hr0 | hr0
  · subst hr0
    rw [if_pos rfl, Nat.add_zero]
    have hrw : b * q + 0 + b - 1 = b * q + (b - 1) := by omega
    rw [hrw, Nat.mul_add_div (by omega), Nat.div_eq_of_lt (by omega), Nat.add_zero]
  · rw [if_neg (by omega)]
    have hexp : b * (q + 1) = b * q + b := by ring
    have hrw : b * q + r + b - 1 = b * (q + 1) + (r - 1) := by omega
    rw [hrw, Nat.mul_add_div (by omega), Nat.div_eq_of_lt (by omega), Nat.add_zero]

/-- C1: for every total image count `n ≥ 1` and batch size `b ≥ 1`, the
inference batch splitting of `_unlabeled_inference` produces exactly
`⌈n / b⌉` generation calls, their requested sizes sum to exactly `n`, every
call before the last requests exactly `b` images, and the last call
requests the remainder (`b` itself when `b ∣ n`). -/
theorem inference_batch_split_spec (n b : Nat) (hn : 1 ≤ n) (hb : 1 ≤ b) :
    (unlabeled_inference_batch_sizes n b).length = (n + b - 1) / b ∧
    (unlabeled_inference_batch_sizes n b).sum = n ∧
    (∀ i, i + 1 < (unlabeled_inference_batch_sizes n b).length →
      (unlabeled_inference_batch_sizes n b).getD i 0 = b) ∧
    (unlabeled_inference_batch_sizes n b).getLast? =
      some (if n % b = 0 then b else n % b) := by
  have hnf := unlabeled_inference_batch_sizes_eq n b hn hb
  have hceil := determine_n_batches_eq_ceil n b hb
  have hnb : 1 ≤ (determine_n_batches n b).1 := by
    rw [determine_n_batches_fst]
    rcases Nat.eq_zero_or_pos (n % b) with hr | hr
    · rw [if_pos hr]
      have hdvd : b ∣ n := Nat.dvd_of_mod_eq_zero hr
      obtain ⟨q, rfl⟩ := hdvd
      have hq : 1 ≤ q := by
        by_contra hq
        have : q = 0 := by omega
        subst this
        omega
      have : b * q / b = q := by
        rw [Nat.mul_div_cancel_left _ (by omega)]
      omega
    · rw [if_neg (by omega)]
      exact Nat.le_add_left 1 _
  refine ⟨?_, ?_, ?_, ?_⟩
  · rw [hnf]
    simp only [List.length_append, List.length_replicate, List.length_cons,
      List.length_nil]
    omega
  · rw [hnf, List.sum_append, List.sum_replicate, smul_eq_mul]
    simp only [List.sum_cons, List.sum_nil, Nat.add_zero]
    obtain ⟨q, r, hr, rfl⟩ : ∃ q r, r < b ∧ n = b * q + r :=
      ⟨n / b, n % b, Nat.mod_lt _ (by omega), (Nat.div_add_mod n b).symm⟩
    have hdiv : (b * q + r) / b = q := by
      rw [Nat.mul_add_div (by omega), Nat.div_eq_of_lt hr, Nat.add_zero]
    have hmod : (b * q + r) % b = r := by
      rw [Nat.mul_add_mod, Nat.mod_eq_of_lt hr]
    rw [determine_n_batches_fst, hdiv, hmod]
    rcases Nat.eq_zero_or_pos r with hr0 | hr0
    · subst hr0
      rw [if_pos rfl, if_pos rfl, Nat.add_zero]
      have hq : 1 ≤ q := by
        by_contra hq
        have : q = 0 := by omega
        subst this
        omega
      have hexp : (q - 1) * b + b = q * b := by
        have h2 : q - 1 + 1 = q := by omega
        calc (q - 1) * b + b = (q - 1 + 1) * b := by ring
          _ = q * b := by rw [h2]
      have hcomm : q * b = b * q := by ring
      omega
    · rw [if_neg (by omega), if_neg (by omega)]
      simp only [Nat.add_sub_cancel]
      have hcomm : q * b = b * q := by ring
      omega
  · intro i hi
    rw [hnf] at hi ⊢
    simp only [List.length_append, List.length_replicate, List.length_cons,
      List.length_nil] at hi
    rw [List.getD_eq_getElem?_getD, List.getElem?_append_left (by
      simp only [List.length_replicate]; omega)]
    rw [List.getElem?_replicate, if_pos (by omega)]
    rfl
  · rw [hnf, List.getLast?_concat]

/-- Witness for C1 at `n = 10`, `b = 4`: three calls `[4, 4, 2]`. -/
theorem inference_batch_split_spec_witness :
    (unlabeled_inference_batch_sizes 10 4).length = (10 + 4 - 1) / 4 ∧
    (unlabeled_inference_batch_sizes 10 4).sum = 10 ∧
    (∀ i, i + 1 < (unlabeled_inference_batch_sizes 10 4).length →
      (unlabeled_inference_batch_sizes 10 4).getD i 0 = 4) ∧
    (unlabeled_inference_batch_sizes 10 4).getLast? =
      some (if 10 % 4 = 0 then 4 else 10 % 4) :=
  inference_batch_split_spec 10 4 (by decide) (by decide)

/-- C3: fixed-seed preview latent generation is deterministic and leaves
the global random stream untouched. Two calls with no intervening draws
yield bitwise-identical latent vectors (hence identical preview output for
fixed generator parameters), the generator state after each call equals
the state before it, and the next draw after zero, one, or two preview
calls is the same draw. Holds for every generator model
(`next`/`sample`/`seed_state`), seed, vector size, and starting state. -/
theorem fixed_latent_preview_deterministic (next : Nat → Nat)
    (sample : Nat → Int) (seed_state : Nat → Nat)
    (fixed_seed n_values g : Nat) :
    (generate_fixed_latent_vector next sample seed_state fixed_seed n_values
        g).1 =
      (generate_fixed_latent_vector next sample seed_state fixed_seed n_values
        ((generate_fixed_latent_vector next sample seed_state fixed_seed
          n_values g).2)).1 ∧
    (generate_fixed_latent_vector next sample seed_state fixed_seed n_values
        g).2 = g ∧
    (generate_fixed_latent_vector next sample seed_state fixed_seed n_values
        ((generate_fixed_latent_vector next sample seed_state fixed_seed
          n_values g).2)).2 = g ∧
    randn_stream next sample 1
        ((generate_fixed_latent_vector next sample seed_state fixed_seed
          n_values g).2) =
      randn_stream next sample 1 g ∧
    randn_stream next sample 1
        ((generate_fixed_latent_vector next sample seed_state fixed_seed
          n_values
          ((generate_fixed_latent_vector next sample seed_state fixed_seed
            n_values g).2)).2) =
      randn_stream next sample 1 g := by
  refine ⟨rfl, rfl, rfl, rfl, rfl⟩

/-- C7: a StyleGAN training step on a batch with exactly one sample
surfaces a warning and returns with the module state unchanged — no
backward pass or optimizer step happens, nothing is appended to the loss
history, and alpha, the stage index, and the epoch-in-stage counter keep
their prior values — and a run simply continues with the next batch. -/
theorem stylegan_singleton_batch_skipped (env : StyleGANEnv)
    (st : StyleGANState) (batch_idx : Nat) (rest : List Nat) (s : Nat) :
    stylegan_training_step env st 1 batch_idx =
      (st, [StepEvent.warn_skip batch_idx]) ∧
    (stylegan_training_step env st 1 batch_idx).1.alpha = st.alpha ∧
    (stylegan_training_step env st 1 batch_idx).1.current_step =
      st.current_step ∧
    (stylegan_training_step env st 1
        batch_idx).1.current_epoch_in_progressive_epoch =
      st.current_epoch_in_progressive_epoch ∧
    (stylegan_training_step env st 1 batch_idx).1.train_loss_list =
      st.train_loss_list ∧
    (∀ i, StepEvent.disc_backward i ∉
      (stylegan_training_step env st 1 batch_idx).2) ∧
    (∀ i, StepEvent.gen_backward i ∉
      (stylegan_training_step env st 1 batch_idx).2) ∧
    (∀ i, StepEvent.disc_opt_step i ∉
      (stylegan_training_step env st 1 batch_idx).2) ∧
    (∀ i, StepEvent.gen_opt_step i ∉
      (stylegan_training_step env st 1 batch_idx).2) ∧
    StepEvent.warn_skip batch_idx ∈
      (stylegan_training_step env st 1 batch_idx).2 ∧
    stylegan_run env st (1 :: rest) s =
      ((stylegan_run env st rest (s + 1)).1,
        StepEvent.warn_skip s :: (stylegan_run env st rest (s + 1)).2) := by
  have h : stylegan_training_step env st 1 batch_idx =
      (st, [StepEvent.warn_skip batch_idx]) := by
    unfold stylegan_training_step
    rw [if_pos rfl]
  refine ⟨h, by rw [h], by rw [h], by rw [h], by rw [h], ?_, ?_, ?_, ?_, ?_, ?_⟩
  · intro i
    rw [h]
    simp
  · intro i
    rw [h]
    simp
  · intro i
    rw [h]
    simp
  · intro i
    rw [h]
    simp
  · rw [h]
    simp
  · have h2 : stylegan_training_step env st 1 s =
        (st, [StepEvent.warn_skip s]) := by
      unfold stylegan_training_step
      rw [if_pos rfl]
    conv_lhs => rw [stylegan_run]
    rw [h2]
    simp

/-- C9: the preview filename index `i*n + n` does not separate batches:
with `n_fixed_images_to_generate = 4` and `fixed_images_batch_size = 2`
the epoch-end preview pass has two batches, and image 0 of batch 0 and
image 0 of batch 1 receive the same filename, so the assigned filename
list has a duplicate. -/
theorem fixed_preview_filename_collision :
    2 ≤ (fixed_preview_batch_sizes 4 2).length ∧
    (fixed_preview_filenames 4 2 0).getD 0 "" =
      (fixed_preview_filenames 4 2 0).getD 2 "" ∧
    ¬ (fixed_preview_filenames 4 2 0).Nodup := by
  refine ⟨by decide, by decide, by decide⟩

/-- The resize transform for the current stage is present after
`_set_current_resize_transform` runs. -/
lemma resize_mem_set_current_resize_transform (cfg : StyleGANArchConfig)
    (current_step : Nat) (transforms : List ImageTransform) :
    ImageTransform.resize (determine_required_spatial_shape cfg current_step) ∈
      set_current_resize_transform cfg current_step transforms := by
  unfold set_current_resize_transform
  by_cases hany : transforms.any is_resize
  · rw [if_pos hany]
    induction transforms with
    | nil => simp at hany
    | cons t rest ih =>
      unfold replace_first_resize
      by_cases ht : is_resize t
      · rw [if_pos ht]
        exact List.mem_cons_self _ _
      · rw [if_neg ht]
        refine List.mem_cons_of_mem _ (ih ?_)
        simp only [List.any_cons, ht, Bool.false_or] at hany
        exact hany
  · rw [if_neg hany]
    exact List.mem_append_right _ (List.mem_singleton.mpr rfl)

/-- C4: at training start, a mismatch between the sum of the progressive
per-stage epoch counts and the trainer's total epoch budget is a fatal
error raised in the train-start hook — hence before the first training
step processes any batch — and when the totals agree, training start
succeeds and installs the resize transform of the current stage into the
data pipeline. -/
theorem stylegan_on_train_start_spec (cfg : StyleGANArchConfig)
    (max_epochs : Nat) (progressive_epochs : List Nat) (current_step : Nat)
    (transforms : List ImageTransform) :
    (max_epochs ≠ progressive_epochs.sum →
      on_train_start cfg max_epochs progressive_epochs current_step transforms =
        Except.error (TrainStartError.stage_schedule_mismatch max_epochs
          progressive_epochs.sum)) ∧
    (max_epochs = progressive_epochs.sum →
      on_train_start cfg max_epochs progressive_epochs current_step transforms =
        Except.ok (set_current_resize_transform cfg current_step transforms) ∧
      ImageTransform.resize (determine_required_spatial_shape cfg current_step) ∈
        set_current_resize_transform cfg current_step transforms) := by
  constructor
  · intro hne
    unfold on_train_start
    rw [if_neg hne]
  · intro heq
    refine ⟨?_, resize_mem_set_current_resize_transform cfg current_step transforms⟩
    unfold on_train_start
    rw [if_pos heq]

/-- Witness for C4 at a concrete configuration: schedule `[2, 2]` with a
trainer budget of 4 epochs (match) and the mismatch implication
instantiated at the same point. -/
theorem stylegan_on_train_start_spec_witness :
    ((4 : Nat) ≠ ([2, 2] : List Nat).sum →
      on_train_start ⟨4, 2, 2⟩ 4 [2, 2] 0 [] =
        Except.error (TrainStartError.stage_schedule_mismatch 4
          ([2, 2] : List Nat).sum)) ∧
    ((4 : Nat) = ([2, 2] : List Nat).sum →
      on_train_start ⟨4, 2, 2⟩ 4 [2, 2] 0 [] =
        Except.ok (set_current_resize_transform ⟨4, 2, 2⟩ 0 []) ∧
      ImageTransform.resize (determine_required_spatial_shape ⟨4, 2, 2⟩ 0) ∈
        set_current_resize_transform ⟨4, 2, 2⟩ 0 []) :=
  stylegan_on_train_start_spec ⟨4, 2, 2⟩ 4 [2, 2] 0 []

/-- The per-batch alpha increment is non-negative for all (Nat-valued)
batch size, schedule entry, and dataset size. -/
lemma stylegan_increment_nonneg (env : StyleGANEnv) (st : StyleGANState)
    (b : Nat) :
    (0:ℚ) ≤ (b : ℚ) /
      ((env.progressive_epochs.getD st.current_step 0 : ℚ) *
        (env.dataset_size : ℚ)) :=
  div_nonneg (Nat.cast_nonneg _)
    (mul_nonneg (Nat.cast_nonneg _) (Nat.cast_nonneg _))

/-- On a non-skipped batch, the training step sets alpha to the clamped
incremented value. -/
lemma stylegan_step_alpha_eq (env : StyleGANEnv) (st : StyleGANState)
    (b idx : Nat) (hb : b ≠ 1) :
    (stylegan_training_step env st b idx).1.alpha =
      min (st.alpha + (b : ℚ) /
        ((env.progressive_epochs.getD st.current_step 0 : ℚ) *
          (env.dataset_size : ℚ))) 1 := by
  unfold stylegan_training_step
  rw [if_neg hb]

/-- One training step never decreases alpha and keeps it within `[0, 1]`,
whether or not the batch is skipped. -/
lemma stylegan_step_alpha_bounds (env : StyleGANEnv) (st : StyleGANState)
    (b idx : Nat) (h0 : 0 ≤ st.alpha) (h1 : st.alpha ≤ 1) :
    st.alpha ≤ (stylegan_training_step env st b idx).1.alpha ∧
    (stylegan_training_step env st b idx).1.alpha ≤ 1 ∧
    0 ≤ (stylegan_training_step env st b idx).1.alpha := by
  by_cases hb : b = 1
  · have h : (stylegan_training_step env st b idx).1.alpha = st.alpha := by
      unfold stylegan_training_step
      rw [if_pos hb]
    rw [h]
    exact ⟨le_refl _, h1, h0⟩
  · rw [stylegan_step_alpha_eq env st b idx hb]
    have hincr := stylegan_increment_nonneg env st b
    refine ⟨le_min (le_add_of_nonneg_right hincr) h1, min_le_right _ _,
      le_min (by linarith) (by norm_num)⟩

lemma stylegan_alpha_trace_head (env : StyleGANEnv) (st : StyleGANState)
    (batches : List Nat) (s : Nat) :
    (stylegan_alpha_trace env st batches s).head? = some st.alpha := by
  cases batches <;> rfl

/-- C2: along any run of StyleGAN training steps — whatever the (positive)
batch sizes, dataset size, and per-stage epoch counts — the alpha blend
factor is non-decreasing from each training step to the next and never
exceeds 1.0, provided its initial value lies in `[0, 1]`. -/
theorem stylegan_alpha_monotone_bounded (env : StyleGANEnv)
    (st : StyleGANState) (batches : List Nat) (s : Nat)
    (h0 : 0 ≤ st.alpha) (h1 : st.alpha ≤ 1)
    (hbs : ∀ b ∈ batches, 0 < b) (_hds : 0 < env.dataset_size)
    (_hpe : ∀ e ∈ env.progressive_epochs, 0 < e) :
    List.Chain' (fun a c => a ≤ c) (stylegan_alpha_trace env st batches s) ∧
    ∀ a ∈ stylegan_alpha_trace env st batches s, a ≤ 1 := by
  induction batches generalizing st s with
  | nil =>
    constructor
    · exact List.chain'_singleton _
    · intro a ha
      have : a = st.alpha := by
        simpa [stylegan_alpha_trace] using ha
      rw [this]
      exact h1
  | cons b rest ih =>
    obtain ⟨hmono, hle1, hge0⟩ := stylegan_step_alpha_bounds env st b s h0 h1
    obtain ⟨ihchain, ihbound⟩ :=
      ih (stylegan_training_step env st b s).1 (s + 1) hge0 hle1
        (fun x hx => hbs x (List.mem_cons_of_mem _ hx))
    have hcons : stylegan_alpha_trace env st (b :: rest) s =
        st.alpha ::
          stylegan_alpha_trace env (stylegan_training_step env st b s).1 rest
            (s + 1) := rfl
    constructor
    · rw [hcons, List.chain'_cons']
      refine ⟨?_, ihchain⟩
      intro y hy
      rw [stylegan_alpha_trace_head] at hy
      have hxy : (stylegan_training_step env st b s).1.alpha = y := by
        simpa using hy
      exact hxy ▸ hmono
    · intro a ha
      rw [hcons] at ha
      rcases List.mem_cons.mp ha with h | h
      · rw [h]
        exact h1
      · exact ihbound a h

/-- Witness for C2 on a concrete run (two batches of sizes 2 and 3 from
alpha 0). -/
theorem stylegan_alpha_monotone_bounded_witness :
    List.Chain' (fun a c => a ≤ c)
      (stylegan_alpha_trace example_stylegan_env initial_stylegan_state
        [2, 3] 0) ∧
    ∀ a ∈ stylegan_alpha_trace example_stylegan_env initial_stylegan_state
        [2, 3] 0, a ≤ 1 :=
  stylegan_alpha_monotone_bounded example_stylegan_env initial_stylegan_state
    [2, 3] 0 (by norm_num [initial_stylegan_state])
    (by norm_num [initial_stylegan_state]) (by decide)
    (by norm_num [example_stylegan_env]) (by decide)

/-- Once alpha is exactly 1, any module operation (training step or
epoch-end stage bookkeeping) leaves it at 1. -/
lemma apply_stylegan_op_alpha_one (env : StyleGANEnv) (st : StyleGANState)
    (op : StyleGANOp) (h : st.alpha = 1) :
    (apply_stylegan_op env st op).alpha = 1 := by
  cases op with
  | train_step b i =>
    show (stylegan_training_step env st b i).1.alpha = 1
    by_cases hb : b = 1
    · have heq : (stylegan_training_step env st b i).1.alpha = st.alpha := by
        unfold stylegan_training_step
        rw [if_pos hb]
      rw [heq, h]
    · rw [stylegan_step_alpha_eq env st b i hb, h]
      exact min_eq_right
        (le_add_of_nonneg_right (stylegan_increment_nonneg env st b))
  | epoch_end =>
    show (update_current_step env st).alpha = 1
    simp only [update_current_step]
    split
    · exact h
    · exact h

lemma apply_stylegan_ops_alpha_one (env : StyleGANEnv)
    (ops : List StyleGANOp) :
    ∀ st : StyleGANState, st.alpha = 1 →
      (apply_stylegan_ops env st ops).alpha = 1 := by
  induction ops with
  | nil => intro st h; exact h
  | cons op rest ih =>
    intro st h
    show (apply_stylegan_ops env (apply_stylegan_op env st op) rest).alpha = 1
    exact ih _ (apply_stylegan_op_alpha_one env st op h)

/-- C10: advancing the progressive stage at an epoch boundary
(`_update_current_step`) changes only the stage index and the
epoch-within-stage counter of the module state — alpha and the loss
history are untouched — and once alpha has reached 1.0 it stays 1.0 under
every further sequence of training steps and epoch boundaries. -/
theorem stylegan_stage_advance_frame (env : StyleGANEnv)
    (st : StyleGANState) :
    (update_current_step env st).alpha = st.alpha ∧
    (update_current_step env st).train_loss_list = st.train_loss_list ∧
    (st.alpha = 1 → ∀ ops : List StyleGANOp,
      (apply_stylegan_ops env st ops).alpha = 1) := by
  refine ⟨?_, ?_, fun h ops => apply_stylegan_ops_alpha_one env ops st h⟩
  · simp only [update_current_step]
    split
    · rfl
    · rfl
  · simp only [update_current_step]
    split
    · rfl
    · rfl

/-- Witness for C10 at a concrete state with alpha 1 and a mixed operation
sequence. -/
theorem stylegan_stage_advance_frame_witness :
    (update_current_step example_stylegan_env
      (⟨1, 0, 0, []⟩ : StyleGANState)).alpha =
      (⟨1, 0, 0, []⟩ : StyleGANState).alpha ∧
    (update_current_step example_stylegan_env
      (⟨1, 0, 0, []⟩ : StyleGANState)).train_loss_list =
      (⟨1, 0, 0, []⟩ : StyleGANState).train_loss_list ∧
    ((⟨1, 0, 0, []⟩ : StyleGANState).alpha = 1 → ∀ ops : List StyleGANOp,
      (apply_stylegan_ops example_stylegan_env
        (⟨1, 0, 0, []⟩ : StyleGANState) ops).alpha = 1) :=
  stylegan_stage_advance_frame example_stylegan_env ⟨1, 0, 0, []⟩

/-- Counting arithmetic for accumulation boundaries: the number of
boundary indices gained by extending a run by one step. -/
lemma boundary_div_step (k s T : Nat) :
    (s + (T + 1)) / k - s / k =
      (if (s + 1) % k = 0 then 1 else 0) + ((s + 1 + T) / k - (s + 1) / k) := by
  have h1 : (s + 1) / k = s / k + if k ∣ (s + 1) then 1 else 0 :=
    Nat.succ_div s k
  have h2 : (s + 1) / k ≤ (s + 1 + T) / k :=
    Nat.div_le_div_right (by omega)
  have h3 : s + (T + 1) = s + 1 + T := by omega
  rw [h3]
  by_cases hd : k ∣ (s + 1)
  · rw [if_pos hd] at h1
    rw [if_pos (Nat.dvd_iff_mod_eq_zero.mp hd)]
    omega
  · rw [if_neg hd] at h1
    rw [if_neg (fun hmod => hd (Nat.dvd_iff_mod_eq_zero.mpr hmod))]
    omega

/-- DCGAN step: one discriminator optimizer step exactly on accumulation
boundaries. -/
lemma dcgan_step_disc_count (env : DCGANEnv) (st : DCGANState)
    (b idx : Nat) :
    count_disc_opt_steps (dcgan_training_step env st b idx).2 =
      if (idx + 1) % env.accumulate_grad_batches = 0 then 1 else 0 := by
  by_cases h : (idx + 1) % env.accumulate_grad_batches = 0
  · simp [dcgan_training_step, count_disc_opt_steps, h, is_disc_opt_step]
  · simp [dcgan_training_step, count_disc_opt_steps, h, is_disc_opt_step]

/-- DCGAN step: one discriminator zero_grad exactly on accumulation
boundaries. -/
lemma dcgan_step_disc_zero_count (env : DCGANEnv) (st : DCGANState)
    (b idx : Nat) :
    count_disc_zero_grads (dcgan_training_step env st b idx).2 =
      if (idx + 1) % env.accumulate_grad_batches = 0 then 1 else 0 := by
  by_cases h : (idx + 1) % env.accumulate_grad_batches = 0
  · simp [dcgan_training_step, count_disc_zero_grads, h, is_disc_zero_grad]
  · simp [dcgan_training_step, count_disc_zero_grads, h, is_disc_zero_grad]

/-- StyleGAN step on a non-skipped batch: one discriminator optimizer step
exactly on accumulation boundaries. -/
lemma stylegan_step_disc_count (env : StyleGANEnv) (st : StyleGANState)
    (b idx : Nat) (hb : b ≠ 1) :
    count_disc_opt_steps (stylegan_training_step env st b idx).2 =
      if (idx + 1) % env.accumulate_grad_batches = 0 then 1 else 0 := by
  by_cases h : (idx + 1) % env.accumulate_grad_batches = 0
  · simp [stylegan_training_step, count_disc_opt_steps, hb, h, is_disc_opt_step]
  · simp [stylegan_training_step, count_disc_opt_steps, hb, h, is_disc_opt_step]

/-- StyleGAN step on a non-skipped batch: one discriminator zero_grad
exactly on accumulation boundaries. -/
lemma stylegan_step_disc_zero_count (env : StyleGANEnv) (st : StyleGANState)
    (b idx : Nat) (hb : b ≠ 1) :
    count_disc_zero_grads (stylegan_training_step env st b idx).2 =
      if (idx + 1) % env.accumulate_grad_batches = 0 then 1 else 0 := by
  by_cases h : (idx + 1) % env.accumulate_grad_batches = 0
  · simp [stylegan_training_step, count_disc_zero_grads, hb, h,
      is_disc_zero_grad]
  · simp [stylegan_training_step, count_disc_zero_grads, hb, h,
      is_disc_zero_grad]

lemma dcgan_run_disc_count (env : DCGANEnv) (batches : List Nat) :
    ∀ (st : DCGANState) (s : Nat),
      count_disc_opt_steps (dcgan_run env st batches s).2 =
        (s + batches.length) / env.accumulate_grad_batches -
          s / env.accumulate_grad_batches := by
  induction batches with
  | nil =>
    intro st s
    simp [dcgan_run, count_disc_opt_steps]
  | cons b rest ih =>
    intro st s
    have hrun : dcgan_run env st (b :: rest) s =
        ((dcgan_run env (dcgan_training_step env st b s).1 rest (s + 1)).1,
          (dcgan_training_step env st b s).2 ++
            (dcgan_run env (dcgan_training_step env st b s).1 rest
              (s + 1)).2) := rfl
    rw [hrun]
    show count_disc_opt_steps ((dcgan_training_step env st b s).2 ++
      (dcgan_run env (dcgan_training_step env st b s).1 rest (s + 1)).2) = _
    rw [count_disc_opt_steps, List.countP_append]
    rw [show (dcgan_training_step env st b s).2.countP is_disc_opt_step =
      count_disc_opt_steps (dcgan_training_step env st b s).2 from rfl]
    rw [show ((dcgan_run env (dcgan_training_step env st b s).1 rest
        (s + 1)).2).countP is_disc_opt_step =
      count_disc_opt_steps (dcgan_run env (dcgan_training_step env st b s).1
        rest (s + 1)).2 from rfl]
    rw [dcgan_step_disc_count, ih _ (s + 1)]
    simp only [List.length_cons]
    exact (boundary_div_step env.accumulate_grad_batches s rest.length).symm

lemma dcgan_run_disc_zero_count (env : DCGANEnv) (batches : List Nat) :
    ∀ (st : DCGANState) (s : Nat),
      count_disc_zero_grads (dcgan_run env st batches s).2 =
        (s + batches.length) / env.accumulate_grad_batches -
          s / env.accumulate_grad_batches := by
  induction batches with
  | nil =>
    intro st s
    simp [dcgan_run, count_disc_zero_grads]
  | cons b rest ih =>
    intro st s
    have hrun : dcgan_run env st (b :: rest) s =
        ((dcgan_run env (dcgan_training_step env st b s).1 rest (s + 1)).1,
          (dcgan_training_step env st b s).2 ++
            (dcgan_run env (dcgan_training_step env st b s).1 rest
              (s + 1)).2) := rfl
    rw [hrun]
    show count_disc_zero_grads ((dcgan_training_step env st b s).2 ++
      (dcgan_run env (dcgan_training_step env st b s).1 rest (s + 1)).2) = _
    rw [count_disc_zero_grads, List.countP_append]
    rw [show (dcgan_training_step env st b s).2.countP is_disc_zero_grad =
      count_disc_zero_grads (dcgan_training_step env st b s).2 from rfl]
    rw [show ((dcgan_run env (dcgan_training_step env st b s).1 rest
        (s + 1)).2).countP is_disc_zero_grad =
      count_disc_zero_grads (dcgan_run env (dcgan_training_step env st b s).1
        rest (s + 1)).2 from rfl]
    rw [dcgan_step_disc_zero_count, ih _ (s + 1)]
    simp only [List.length_cons]
    exact (boundary_div_step env.accumulate_grad_batches s rest.length).symm

lemma stylegan_run_disc_count (env : StyleGANEnv) (batches : List Nat) :
    ∀ (st : StyleGANState) (s : Nat), (∀ b ∈ batches, b ≠ 1) →
      count_disc_opt_steps (stylegan_run env st batches s).2 =
        (s + batches.length) / env.accumulate_grad_batches -
          s / env.accumulate_grad_batches := by
  induction batches with
  | nil =>
    intro st s _
    simp [stylegan_run, count_disc_opt_steps]
  | cons b rest ih =>
    intro st s hb
    have hb1 : b ≠ 1 := hb b (List.mem_cons_self _ _)
    have hrun : stylegan_run env st (b :: rest) s =
        ((stylegan_run env (stylegan_training_step env st b s).1 rest
            (s + 1)).1,
          (stylegan_training_step env st b s).2 ++
            (stylegan_run env (stylegan_training_step env st b s).1 rest
              (s + 1)).2) := rfl
    rw [hrun]
    show count_disc_opt_steps ((stylegan_training_step env st b s).2 ++
      (stylegan_run env (stylegan_training_step env st b s).1 rest
        (s + 1)).2) = _
    rw [count_disc_opt_steps, List.countP_append]
    rw [show (stylegan_training_step env st b s).2.countP is_disc_opt_step =
      count_disc_opt_steps (stylegan_training_step env st b s).2 from rfl]
    rw [show ((stylegan_run env (stylegan_training_step env st b s).1 rest
        (s + 1)).2).countP is_disc_opt_step =
      count_disc_opt_steps (stylegan_run env
        (stylegan_training_step env st b s).1 rest (s + 1)).2 from rfl]
    rw [stylegan_step_disc_count env st b s hb1,
      ih _ (s + 1) (fun x hx => hb x (List.mem_cons_of_mem _ hx))]
    simp only [List.length_cons]
    exact (boundary_div_step env.accumulate_grad_batches s rest.length).symm

lemma stylegan_run_disc_zero_count (env : StyleGANEnv) (batches : List Nat) :
    ∀ (st : StyleGANState) (s : Nat), (∀ b ∈ batches, b ≠ 1) →
      count_disc_zero_grads (stylegan_run env st batches s).2 =
        (s + batches.length) / env.accumulate_grad_batches -
          s / env.accumulate_grad_batches := by
  induction batches with
  | nil =>
    intro st s _
    simp [stylegan_run, count_disc_zero_grads]
  | cons b rest ih =>
    intro st s hb
    have hb1 : b ≠ 1 := hb b (List.mem_cons_self _ _)
    have hrun : stylegan_run env st (b :: rest) s =
        ((stylegan_run env (stylegan_training_step env st b s).1 rest
            (s + 1)).1,
          (stylegan_training_step env st b s).2 ++
            (stylegan_run env (stylegan_training_step env st b s).1 rest
              (s + 1)).2) := rfl
    rw [hrun]
    show count_disc_zero_grads ((stylegan_training_step env st b s).2 ++
      (stylegan_run env (stylegan_training_step env st b s).1 rest
        (s + 1)).2) = _
    rw [count_disc_zero_grads, List.countP_append]
    rw [show (stylegan_training_step env st b s).2.countP is_disc_zero_grad =
      count_disc_zero_grads (stylegan_training_step env st b s).2 from rfl]
    rw [show ((stylegan_run env (stylegan_training_step env st b s).1 rest
        (s + 1)).2).countP is_disc_zero_grad =
      count_disc_zero_grads (stylegan_run env
        (stylegan_training_step env st b s).1 rest (s + 1)).2 from rfl]
    rw [stylegan_step_disc_zero_count env st b s hb1,
      ih _ (s + 1) (fun x hx => hb x (List.mem_cons_of_mem _ hx))]
    simp only [List.length_cons]
    exact (boundary_div_step env.accumulate_grad_batches s rest.length).symm

/-- A DCGAN step emits a discriminator optimizer step only at its own
index and only on an accumulation boundary. -/
lemma dcgan_step_disc_mem (env : DCGANEnv) (st : DCGANState)
    (b idx i : Nat) :
    StepEvent.disc_opt_step i ∈ (dcgan_training_step env st b idx).2 →
      i = idx ∧ (idx + 1) % env.accumulate_grad_batches = 0 := by
  by_cases h : (idx + 1) % env.accumulate_grad_batches = 0
  · intro hm
    simp [dcgan_training_step, h] at hm
    exact ⟨hm, h⟩
  · intro hm
    simp [dcgan_training_step, h] at hm

/-- A StyleGAN step emits a discriminator optimizer step only at its own
index and only on an accumulation boundary (never on a skipped batch). -/
lemma stylegan_step_disc_mem (env : StyleGANEnv) (st : StyleGANState)
    (b idx i : Nat) :
    StepEvent.disc_opt_step i ∈ (stylegan_training_step env st b idx).2 →
      i = idx ∧ (idx + 1) % env.accumulate_grad_batches = 0 := by
  by_cases hb : b = 1
  · intro hm
    simp [stylegan_training_step, hb] at hm
  · by_cases h : (idx + 1) % env.accumulate_grad_batches = 0
    · intro hm
      simp [stylegan_training_step, hb, h] at hm
      exact ⟨hm, h⟩
    · intro hm
      simp [stylegan_training_step, hb, h] at hm

lemma dcgan_run_disc_mem (env : DCGANEnv) (batches : List Nat) :
    ∀ (st : DCGANState) (s i : Nat),
      StepEvent.disc_opt_step i ∈ (dcgan_run env st batches s).2 →
        (i + 1) % env.accumulate_grad_batches = 0 := by
  induction batches with
  | nil =>
    intro st s i hm
    simp [dcgan_run] at hm
  | cons b rest ih =>
    intro st s i hm
    have hrun : dcgan_run env st (b :: rest) s =
        ((dcgan_run env (dcgan_training_step env st b s).1 rest (s + 1)).1,
          (dcgan_training_step env st b s).2 ++
            (dcgan_run env (dcgan_training_step env st b s).1 rest
              (s + 1)).2) := rfl
    rw [hrun] at hm
    rcases List.mem_append.mp hm with h1 | h2
    · obtain ⟨hi, hbd⟩ := dcgan_step_disc_mem env st b s i h1
      rw [hi]
      exact hbd
    · exact ih _ _ _ h2

lemma stylegan_run_disc_mem (env : StyleGANEnv) (batches : List Nat) :
    ∀ (st : StyleGANState) (s i : Nat),
      StepEvent.disc_opt_step i ∈ (stylegan_run env st batches s).2 →
        (i + 1) % env.accumulate_grad_batches = 0 := by
  induction batches with
  | nil =>
    intro st s i hm
    simp [stylegan_run] at hm
  | cons b rest ih =>
    intro st s i hm
    have hrun : stylegan_run env st (b :: rest) s =
        ((stylegan_run env (stylegan_training_step env st b s).1 rest
            (s + 1)).1,
          (stylegan_training_step env st b s).2 ++
            (stylegan_run env (stylegan_training_step env st b s).1 rest
              (s + 1)).2) := rfl
    rw [hrun] at hm
    rcases List.mem_append.mp hm with h1 | h2
    · obtain ⟨hi, hbd⟩ := stylegan_step_disc_mem env st b s i h1
      rw [hi]
      exact hbd
    · exact ih _ _ _ h2

/-- C5 (amended): over a run of `T` consecutive training steps with batch
indices `0 .. T-1` and accumulation setting `k`, the discriminator
optimizer's step and zero_grad are invoked exactly `⌊T / k⌋` times and
only on batches where `(batch_index + 1)` is divisible by `k` — in the
DCGAN module unconditionally; in the StyleGAN module this count holds
provided no batch of the run has exactly one sample, because StyleGAN
skips single-sample batches before any optimizer work (as the recorded
counterexample shows, a skipped boundary batch loses its optimizer step). -/
theorem disc_optimizer_step_count_spec (envD : DCGANEnv) (stD : DCGANState)
    (batchesD : List Nat) (envS : StyleGANEnv) (stS : StyleGANState)
    (batchesS : List Nat) (hbS : ∀ b ∈ batchesS, b ≠ 1) :
    count_disc_opt_steps (dcgan_run envD stD batchesD 0).2 =
      batchesD.length / envD.accumulate_grad_batches ∧
    count_disc_zero_grads (dcgan_run envD stD batchesD 0).2 =
      batchesD.length / envD.accumulate_grad_batches ∧
    count_disc_opt_steps (stylegan_run envS stS batchesS 0).2 =
      batchesS.length / envS.accumulate_grad_batches ∧
    count_disc_zero_grads (stylegan_run envS stS batchesS 0).2 =
      batchesS.length / envS.accumulate_grad_batches ∧
    (∀ i, StepEvent.disc_opt_step i ∈ (dcgan_run envD stD batchesD 0).2 →
      (i + 1) % envD.accumulate_grad_batches = 0) ∧
    (∀ i, StepEvent.disc_opt_step i ∈ (stylegan_run envS stS batchesS 0).2 →
      (i + 1) % envS.accumulate_grad_batches = 0) := by
  refine ⟨?_, ?_, ?_, ?_,
    fun i => dcgan_run_disc_mem envD batchesD stD 0 i,
    fun i => stylegan_run_disc_mem envS batchesS stS 0 i⟩
  · rw [dcgan_run_disc_count envD batchesD stD 0]
    simp
  · rw [dcgan_run_disc_zero_count envD batchesD stD 0]
    simp
  · rw [stylegan_run_disc_count envS batchesS stS 0 hbS]
    simp
  · rw [stylegan_run_disc_zero_count envS batchesS stS 0 hbS]
    simp

/-- Counterexample to C5 as stated: with accumulation setting `k = 1`, a
StyleGAN run over a single batch of size 1 (`T = 1`) performs zero
discriminator optimizer steps, not `⌊T / k⌋ = 1` — the size-1 batch is
skipped even though its index is an accumulation boundary. -/
theorem disc_optimizer_step_count_cex :
    count_disc_opt_steps
        (stylegan_run example_stylegan_env initial_stylegan_state [1] 0).2 =
      0 ∧
    ([1] : List Nat).length / example_stylegan_env.accumulate_grad_batches =
      1 ∧
    (0 : Nat) ≠ 1 := by
  refine ⟨by decide, by decide, by decide⟩

/-- Witness for C5 (amended) on concrete runs: DCGAN over batch sizes
`[2, 2, 2]`, StyleGAN over `[2, 3, 2]`, with `k = 1` for both. -/
theorem disc_optimizer_step_count_spec_witness :
    count_disc_opt_steps
        (dcgan_run ⟨2, zero_losses⟩ ⟨[]⟩ [2, 2, 2] 0).2 =
      ([2, 2, 2] : List Nat).length / (2 : Nat) ∧
    count_disc_zero_grads
        (dcgan_run ⟨2, zero_losses⟩ ⟨[]⟩ [2, 2, 2] 0).2 =
      ([2, 2, 2] : List Nat).length / (2 : Nat) ∧
    count_disc_opt_steps
        (stylegan_run example_stylegan_env initial_stylegan_state
          [2, 3, 2] 0).2 =
      ([2, 3, 2] : List Nat).length /
        example_stylegan_env.accumulate_grad_batches ∧
    count_disc_zero_grads
        (stylegan_run example_stylegan_env initial_stylegan_state
          [2, 3, 2] 0).2 =
      ([2, 3, 2] : List Nat).length /
        example_stylegan_env.accumulate_grad_batches ∧
    (∀ i, StepEvent.disc_opt_step i ∈
        (dcgan_run ⟨2, zero_losses⟩ ⟨[]⟩ [2, 2, 2] 0).2 →
      (i + 1) % (2 : Nat) = 0) ∧
    (∀ i, StepEvent.disc_opt_step i ∈
        (stylegan_run example_stylegan_env initial_stylegan_state
          [2, 3, 2] 0).2 →
      (i + 1) % example_stylegan_env.accumulate_grad_batches = 0) :=
  disc_optimizer_step_count_spec ⟨2, zero_losses⟩ ⟨[]⟩ [2, 2, 2]
    example_stylegan_env initial_stylegan_state [2, 3, 2] (by decide)

/-- The labeled-count check succeeds exactly when every class count is a
positive integer. -/
lemma validate_labeled_counts_ok_iff (entries : List (String × PyVal)) :
    validate_labeled_counts entries = Except.ok () ↔
      ∀ kv ∈ entries, ∃ i : Int, kv.2 = PyVal.int i ∧ 0 < i := by
  induction entries with
  | nil => simp [validate_labeled_counts]
  | cons kv rest ih =>
    obtain ⟨k, v⟩ := kv
    cases v with
    | int i =>
      by_cases hi : 0 < i
      · have heq : validate_labeled_counts ((k, PyVal.int i) :: rest) =
            validate_labeled_counts rest := by
          conv_lhs => rw [validate_labeled_counts]
          rw [if_pos hi]
        rw [heq, ih]
        constructor
        · intro h x hx
          rcases List.mem_cons.mp hx with h1 | h2
          · rw [h1]
            exact ⟨i, rfl, hi⟩
          · exact h x h2
        · intro h x hx
          exact h x (List.mem_cons_of_mem _ hx)
      · have heq : validate_labeled_counts ((k, PyVal.int i) :: rest) =
            Except.error
              "The number of images to generate must be greater than 0." := by
          conv_lhs => rw [validate_labeled_counts]
          rw [if_neg hi]
        rw [heq]
        constructor
        · intro h
          exact absurd h (by simp)
        · intro h
          exfalso
          obtain ⟨j, hj, hjpos⟩ := h (k, PyVal.int i) (List.mem_cons_self _ _)
          have : i = j := by
            injection hj
          rw [this] at hi
          exact hi hjpos
    | str s =>
      constructor
      · intro h
        exact absurd h (by simp [validate_labeled_counts])
      · intro h
        exfalso
        obtain ⟨j, hj, _⟩ := h (k, PyVal.str s) (List.mem_cons_self _ _)
        exact PyVal.noConfusion hj
    | dict d =>
      constructor
      · intro h
        exact absurd h (by simp [validate_labeled_counts])
      · intro h
        exfalso
        obtain ⟨j, hj, _⟩ := h (k, PyVal.dict d) (List.mem_cons_self _ _)
        exact PyVal.noConfusion hj
    | pyother =>
      constructor
      · intro h
        exact absurd h (by simp [validate_labeled_counts])
      · intro h
        exfalso
        obtain ⟨j, hj, _⟩ := h (k, PyVal.pyother) (List.mem_cons_self _ _)
        exact PyVal.noConfusion hj

/-- The labeled-count check either succeeds or fails with a non-empty
message. -/
lemma validate_labeled_counts_error_msg (entries : List (String × PyVal)) :
    validate_labeled_counts entries = Except.ok () ∨
      ∃ msg, msg ≠ "" ∧ validate_labeled_counts entries = Except.error msg := by
  induction entries with
  | nil => exact Or.inl rfl
  | cons kv rest ih =>
    obtain ⟨k, v⟩ := kv
    cases v with
    | int i =>
      by_cases hi : 0 < i
      · have heq : validate_labeled_counts ((k, PyVal.int i) :: rest) =
            validate_labeled_counts rest := by
          conv_lhs => rw [validate_labeled_counts]
          rw [if_pos hi]
        rw [heq]
        exact ih
      · refine Or.inr
          ⟨"The number of images to generate must be greater than 0.",
            by decide, ?_⟩
        conv_lhs => rw [validate_labeled_counts]
        rw [if_neg hi]
    | str s =>
      exact Or.inr ⟨"The number of images to generate must be an integer.",
        by decide, rfl⟩
    | dict d =>
      exact Or.inr ⟨"The number of images to generate must be an integer.",
        by decide, rfl⟩
    | pyother =>
      exact Or.inr ⟨"The number of images to generate must be an integer.",
        by decide, rfl⟩

/-- C6: a malformed `inference_parameters` configuration — the key
`n_images_to_generate` missing; or, in the unlabeled paradigm, its value
not an integer or not positive; or, in the labeled paradigm, its value not
a mapping with positive-integer counts per class — makes the
InferenceManager constructor fail with a descriptive (non-empty) fatal
configuration error during validation, before the module factory is
invoked or any checkpoint work begins. -/
theorem inference_config_validation_spec (paradigm : String)
    (params : List (String × PyVal))
    (hbad :
      List.lookup "n_images_to_generate" params = none ∨
      (paradigm = "unlabeled" ∧
        ((∃ v, List.lookup "n_images_to_generate" params = some v ∧
            ∀ i : Int, v ≠ PyVal.int i) ∨
         (∃ i : Int, List.lookup "n_images_to_generate" params =
            some (PyVal.int i) ∧ i ≤ 0))) ∨
      (paradigm ≠ "unlabeled" ∧
        ((∃ v, List.lookup "n_images_to_generate" params = some v ∧
            ∀ d, v ≠ PyVal.dict d) ∨
         (∃ d, List.lookup "n_images_to_generate" params =
            some (PyVal.dict d) ∧
          ¬ ∀ kv ∈ d, ∃ i : Int, kv.2 = PyVal.int i ∧ 0 < i)))) :
    ∃ msg, msg ≠ "" ∧
      inference_manager_init paradigm params =
        ([InitEvent.prepare_output_dir, InitEvent.validate_config],
          Except.error msg) ∧
      InitEvent.module_factory ∉ (inference_manager_init paradigm params).1 ∧
      InitEvent.load_checkpoint ∉ (inference_manager_init paradigm params).1 := by
  have herr : ∃ msg, msg ≠ "" ∧
      validate_inference_config paradigm params = Except.error msg := by
    unfold validate_inference_config
    rcases hbad with hnone | ⟨hpar, hcase⟩ | ⟨hpar, hcase⟩
    · rw [hnone]
      exact
        ⟨"The inference config for the unlabeled paradigm must contain the key 'n_images_to_generate'.",
          by decide, rfl⟩
    · rcases hcase with ⟨v, hv, hnotint⟩ | ⟨i, hv, hle⟩
      · rw [hv]
        show ∃ msg, msg ≠ "" ∧ validate_count_value paradigm v = Except.error msg
        unfold validate_count_value
        rw [if_pos hpar]
        cases v with
        | int i => exact absurd rfl (hnotint i)
        | str s =>
          exact ⟨"The number of images to generate must be an integer.",
            by decide, rfl⟩
        | dict d =>
          exact ⟨"The number of images to generate must be an integer.",
            by decide, rfl⟩
        | pyother =>
          exact ⟨"The number of images to generate must be an integer.",
            by decide, rfl⟩
      · rw [hv]
        show ∃ msg, msg ≠ "" ∧
          validate_count_value paradigm (PyVal.int i) = Except.error msg
        unfold validate_count_value
        rw [if_pos hpar]
        refine ⟨"The number of images to generate must be greater than 0.",
          by decide, ?_⟩
        show (if 0 < i then Except.ok () else Except.error
          "The number of images to generate must be greater than 0.") = _
        rw [if_neg (by omega)]
    · rcases hcase with ⟨v, hv, hnotdict⟩ | ⟨d, hv, hbadcounts⟩
      · rw [hv]
        show ∃ msg, msg ≠ "" ∧ validate_count_value paradigm v = Except.error msg
        unfold validate_count_value
        rw [if_neg hpar]
        cases v with
        | int i =>
          exact ⟨"The number of images to generate must be a dictionary.",
            by decide, rfl⟩
        | str s =>
          exact ⟨"The number of images to generate must be a dictionary.",
            by decide, rfl⟩
        | dict d => exact absurd rfl (hnotdict d)
        | pyother =>
          exact ⟨"The number of images to generate must be a dictionary.",
            by decide, rfl⟩
      · rw [hv]
        show ∃ msg, msg ≠ "" ∧
          validate_count_value paradigm (PyVal.dict d) = Except.error msg
        unfold validate_count_value
        rw [if_neg hpar]
        show ∃ msg, msg ≠ "" ∧ validate_labeled_counts d = Except.error msg
        rcases validate_labeled_counts_error_msg d with hok | hmsg
        · exact absurd ((validate_labeled_counts_ok_iff d).mp hok) hbadcounts
        · exact hmsg
  obtain ⟨msg, hne, hverr⟩ := herr
  have hinit : inference_manager_init paradigm params =
      ([InitEvent.prepare_output_dir, InitEvent.validate_config],
        Except.error msg) := by
    unfold inference_manager_init
    rw [hverr]
  refine ⟨msg, hne, hinit, ?_, ?_⟩
  · rw [hinit]
    simp
  · rw [hinit]
    simp

/-- Witness for C6: an unlabeled-paradigm configuration missing the
`n_images_to_generate` key fails construction before the module factory
runs. -/
theorem inference_config_validation_spec_witness :
    ∃ msg, msg ≠ "" ∧
      inference_manager_init "unlabeled" [] =
        ([InitEvent.prepare_output_dir, InitEvent.validate_config],
          Except.error msg) ∧
      InitEvent.module_factory ∉ (inference_manager_init "unlabeled" []).1 ∧
      InitEvent.load_checkpoint ∉ (inference_manager_init "unlabeled" []).1 :=
  inference_config_validation_spec "unlabeled" [] (Or.inl rfl)

/-- A successful suffix search returns an index at or after the start
whose candidate path does not exist. -/
lemma find_free_index_spec (existing : List String) (base : String) :
    ∀ (fuel start i : Nat),
      find_free_index existing base fuel start = some i →
        indexed_output_path base i ∉ existing ∧ start ≤ i := by
  intro fuel
  induction fuel with
  | zero =>
    intro start i h
    simp [find_free_index] at h
  | succ fuel ih =>
    intro start i h
    by_cases hmem : indexed_output_path base start ∈ existing
    · have h' : find_free_index existing base fuel (start + 1) = some i := by
        rw [find_free_index, if_pos hmem] at h
        exact h
      obtain ⟨hfree, hle⟩ := ih (start + 1) i h'
      exact ⟨hfree, by omega⟩
    · rw [find_free_index, if_neg hmem] at h
      injection h with h
      rw [← h]
      exact ⟨hmem, le_refl _⟩

/-- Case analysis of a successful `_prepare_output_directory` call: the
result is fresh, the filesystem gains exactly it, and it is either the
base path (when free) or a numerically suffixed variant (when taken). -/
lemma prepare_output_directory_cases (existing : List String)
    (output_dir model_dir_basename : String) (fuel : Nat) (p : String)
    (fs2 : List String)
    (h : prepare_output_directory existing output_dir model_dir_basename fuel =
      some (p, fs2)) :
    fs2 = p :: existing ∧ p ∉ existing ∧
    ((prepare_out_dir_path output_dir model_dir_basename ∉ existing ∧
        p = prepare_out_dir_path output_dir model_dir_basename) ∨
      (prepare_out_dir_path output_dir model_dir_basename ∈ existing ∧
        ∃ i, 1 ≤ i ∧
          p = indexed_output_path
            (prepare_out_dir_path output_dir model_dir_basename) i)) := by
  simp only [prepare_output_directory] at h
  by_cases hmem : prepare_out_dir_path output_dir model_dir_basename ∈ existing
  · rw [if_pos hmem] at h
    cases hfind : find_free_index existing
        (prepare_out_dir_path output_dir model_dir_basename) fuel 1 with
    | none =>
      rw [hfind] at h
      exact absurd h (by simp)
    | some i =>
      rw [hfind] at h
      obtain ⟨hfree, hge⟩ := find_free_index_spec existing
        (prepare_out_dir_path output_dir model_dir_basename) fuel 1 i hfind
      injection h with h
      injection h with h1 h2
      subst h1
      subst h2
      exact ⟨rfl, hfree, Or.inr ⟨hmem, i, hge, rfl⟩⟩
  · rw [if_neg hmem] at h
    injection h with h
    injection h with h1 h2
    subst h1
    subst h2
    exact ⟨rfl, hmem, Or.inl ⟨hmem, rfl⟩⟩

/-- C8: output directory resolution never reuses an existing path. A
successful run creates exactly one new directory; when the base name
(derived from the model directory basename) is free it is used, otherwise
a numerically suffixed variant (suffix ≥ 1) is chosen; and a second run
into the updated filesystem yields a directory distinct from the first
(and also new to the original filesystem), again of numerically suffixed
form — so prior results are never overwritten. -/
theorem output_directory_resolution_spec (existing : List String)
    (output_dir model_dir_basename : String) (fuel : Nat) (p : String)
    (fs2 : List String)
    (h : prepare_output_directory existing output_dir model_dir_basename fuel =
      some (p, fs2)) :
    p ∉ existing ∧ fs2 = p :: existing ∧
    (prepare_out_dir_path output_dir model_dir_basename ∉ existing →
      p = prepare_out_dir_path output_dir model_dir_basename) ∧
    (prepare_out_dir_path output_dir model_dir_basename ∈ existing →
      ∃ i, 1 ≤ i ∧
        p = indexed_output_path
          (prepare_out_dir_path output_dir model_dir_basename) i) ∧
    (∀ fuel2 p2 fs3,
      prepare_output_directory fs2 output_dir model_dir_basename fuel2 =
        some (p2, fs3) →
      p2 ≠ p ∧ p2 ∉ existing ∧
      ∃ i, 1 ≤ i ∧
        p2 = indexed_output_path
          (prepare_out_dir_path output_dir model_dir_basename) i) := by
  obtain ⟨hfs2, hp, hcase⟩ := prepare_output_directory_cases existing
    output_dir model_dir_basename fuel p fs2 h
  refine ⟨hp, hfs2, ?_, ?_, ?_⟩
  · intro hnot
    rcases hcase with ⟨_, hpe⟩ | ⟨hmem, _⟩
    · exact hpe
    · exact absurd hmem hnot
  · intro hmem
    rcases hcase with ⟨hnm, _⟩ | ⟨_, hex⟩
    · exact absurd hmem hnm
    · exact hex
  · intro fuel2 p2 fs3 h2
    obtain ⟨hfs3, hp2, hcase2⟩ := prepare_output_directory_cases fs2
      output_dir model_dir_basename fuel2 p2 fs3 h2
    have hbase2 : prepare_out_dir_path output_dir model_dir_basename ∈ fs2 := by
      rw [hfs2]
      rcases hcase with ⟨_, hpe⟩ | ⟨hmem, _⟩
      · rw [hpe]
        exact List.mem_cons_self _ _
      · exact List.mem_cons_of_mem _ hmem
    rcases hcase2 with ⟨hnm2, _⟩ | ⟨_, hex2⟩
    · exact absurd hbase2 hnm2
    · refine ⟨?_, ?_, hex2⟩
      · intro heq
        apply hp2
        rw [hfs2, heq]
        exact List.mem_cons_self _ _
      · intro hmem2
        apply hp2
        rw [hfs2]
        exact List.mem_cons_of_mem _ hmem2

/-- Witness for C8: two consecutive runs into an empty filesystem with
base directory `o` and model directory basename `m` yield the base-named
directory and then a distinct suffixed one. -/
theorem output_directory_resolution_spec_witness :
    ("o/m_inference_output" : String) ∉ ([] : List String) ∧
    ("o/m_inference_output_1" : String) ≠ "o/m_inference_output" ∧
    ("o/m_inference_output_1" : String) ∉ ([] : List String) := by
  have h1 := output_directory_resolution_spec [] "o" "m" 1
    "o/m_inference_output" ["o/m_inference_output"] (by decide)
  have h2 := h1.2.2.2.2 1 "o/m_inference_output_1"
    ["o/m_inference_output_1", "o/m_inference_output"] (by decide)
  exact ⟨h1.1, h2.1, h2.2.1⟩
